import Mathlib

/-!
# Verification of the recipe-chat core (reciperesuggestion)

Shallow embedding, in Lean 4, of the conversational recipe-search core:

* `backend/services/chat_service.py` — the query merge engine
  (`merge_recipe_query_v2`) and the per-turn conversation state machine
  (`process_user_message`);
* `backend/services/recipe_service.py` — the term resolver
  (`resolve_ingredient_to_canonical`, `resolve_tag`, `get_all_ingredient_variants`,
  `map_tags_for_db`) and the hybrid search
  (`search_recipes_ingredients_first`);
* `backend/services/llm_service.py` — the error handling of `check_continue`.

Modelling conventions:

* Python `set` values are modelled as lists compared by membership, with
  `List.toFinset` as the abstraction to the underlying set; Python's
  `sorted(...)` is modelled by `pySorted` (deduplicate, then insertion sort
  by code-point order, which is Python's string order).  Where the Python
  code linearises a set in unspecified iteration order (`list(s)`, f-string
  comprehensions over sets) we use the sorted linearisation; every property
  proved below depends only on the underlying set, never on that order.
* Database reads are modelled as pure lookups into in-memory tables; the two
  statement executions of the hybrid search that the error-handling claims are
  about (the hard-constraint filter and the similarity ranking) are modelled as
  fallible operations returning `Except String _`, mirroring the fact that the
  Python driver may raise at `cur.execute`.  The Python `try/finally` blocks
  (which only close cursors) have no counterpart: they do not alter results.
* Embedding similarities and confidences are modelled as rationals `ℚ`.
-/

/-- `schemas.RecipeQuery`: the structured recipe query (pydantic model).
`query` is the free-text intent, `count` the result limit (default 5). -/
structure RecipeQuery where
  query : String
  include_ingredients : List String
  exclude_ingredients : List String
  count : Nat
deriving DecidableEq, Repr

/-- `schemas.TagsSemanticSchema`: the eight fixed semantic tag categories,
each a free-text string defaulting to `""`. -/
structure TagsSemanticSchema where
  TIME_DURATION : String := ""
  DIFFICULTY_SCALE : String := ""
  SCALE : String := ""
  FREE_OF : String := ""
  DIETS : String := ""
  CUISINES_REGIONAL : String := ""
  MEAL_COURSES : String := ""
  PREPARATION_METHOD : String := ""
deriving DecidableEq, Repr

/-- `model_dump()` of `TagsSemanticSchema`, in pydantic field-declaration
order, as an association list. -/
def TagsSemanticSchema.model_dump (t : TagsSemanticSchema) : List (String × String) :=
  [("TIME_DURATION", t.TIME_DURATION),
   ("DIFFICULTY_SCALE", t.DIFFICULTY_SCALE),
   ("SCALE", t.SCALE),
   ("FREE_OF", t.FREE_OF),
   ("DIETS", t.DIETS),
   ("CUISINES_REGIONAL", t.CUISINES_REGIONAL),
   ("MEAL_COURSES", t.MEAL_COURSES),
   ("PREPARATION_METHOD", t.PREPARATION_METHOD)]

/-- The `changes` dictionary built by `merge_recipe_query_v2`.  The Python
code stores plain lists obtained from sets; we store the sorted
linearisation (the properties below only ever use the underlying sets).
`count_changed` holds the `(old, new)` pair instead of Python's formatted
string. -/
structure MergeChanges where
  added_includes : List String
  removed_includes : List String
  added_excludes : List String
  removed_excludes : List String
  count_changed : Option (Nat × Nat)
deriving DecidableEq, Repr

/-- `chat_service.MergeResult`. -/
structure MergeResult where
  merged_query : RecipeQuery
  changes : MergeChanges
  conflicts : List String
deriving DecidableEq, Repr

/-- Lexicographic comparison of strings as lists of code points; this is
Python's `<=` on strings, used by `sorted(...)`. -/
def strLeList : List Char → List Char → Bool
  | [], _ => true
  | _ :: _, [] => false
  | a :: as, b :: bs =>
    if a.toNat < b.toNat then true
    else if b.toNat < a.toNat then false
    else strLeList as bs

/-- Python's `<=` on strings (code-point lexicographic order). -/
def pyLe (a b : String) : Bool := strLeList a.data b.data

/-- The ordering relation underlying Python's `sorted`. -/
def pyle (a b : String) : Prop := pyLe a b = true

instance : DecidableRel pyle := fun a b => by unfold pyle; infer_instance

/-- The apostrophe character used by the conflict messages. -/
def quoteChar : Char := Char.ofNat 39

/-- Python f-string `f"'{ing}' moved from include to exclude"`. -/
def conflictIncToExc (ing : String) : String :=
  String.singleton quoteChar ++ ing ++ String.singleton quoteChar ++ " moved from include to exclude"

/-- Python f-string `f"'{ing}' moved from exclude to include"`. -/
def conflictExcToInc (ing : String) : String :=
  String.singleton quoteChar ++ ing ++ String.singleton quoteChar ++ " moved from exclude to include"

/-- Python `sorted(s)` for a set `s` represented as a list of its elements
(possibly with duplicates): deduplicate, then sort ascending. -/
def pySorted (l : List String) : List String :=
  l.dedup.insertionSort pyle

/-- Set difference at the list level: Python `s - t` (membership-based). -/
def listDiff (s t : List String) : List String :=
  s.filter (fun x => x ∉ t)

/-- Set intersection at the list level: Python `s & t` / `s.intersection(t)`. -/
def listInter (s t : List String) : List String :=
  s.filter (fun x => x ∈ t)

/-- `chat_service.ChatService.merge_recipe_query_v2`: merge `patch` into
`base` with change tracking.  Mirrors the Python step by step: the four
ingredient lists are read as sets (`inc`, `exc`, `p_inc`, `p_exc`);
added includes/excludes are the patch terms not already present; terms
moving across categories are recorded as conflicts and removals; then
`inc := (inc ∪ p_inc) − p_exc` and `exc := (exc ∪ p_exc) − p_inc` (the
Python does this with `update` followed by `difference_update`); both
are emitted with `sorted(...)`; `count` is adopted from the patch only
when `patch.count ≠ 5` and `patch.count ≠ base.count`; `updated.query`
is never assigned.  Python's sets are modelled as lists compared by
membership; the lists that Python produces from sets in unspecified
iteration order (`changes`, `conflicts`) are emitted sorted here, which
fixes one admissible iteration order. -/
def merge_recipe_query_v2 (base patch : RecipeQuery) : MergeResult :=
  let inc := base.include_ingredients
  let exc := base.exclude_ingredients
  let p_inc := patch.include_ingredients
  let p_exc := patch.exclude_ingredients
  let new_includes := listDiff p_inc inc
  let new_excludes := listDiff p_exc exc
  let moving_to_exclude := listInter inc p_exc
  let moving_to_include := listInter exc p_inc
  let conflicts :=
    (pySorted moving_to_exclude).map conflictIncToExc ++
    (pySorted moving_to_include).map conflictExcToInc
  let inc2 := listDiff (inc ++ p_inc) p_exc
  let exc2 := listDiff (exc ++ p_exc) p_inc
  let countChanged : Option (Nat × Nat) :=
    if patch.count ≠ 5 ∧ patch.count ≠ base.count then some (base.count, patch.count) else none
  let newCount := if patch.count ≠ 5 ∧ patch.count ≠ base.count then patch.count else base.count
  { merged_query :=
      { base with
        include_ingredients := pySorted inc2
        exclude_ingredients := pySorted exc2
        count := newCount }
    changes :=
      { added_includes := pySorted new_includes
        removed_includes := pySorted moving_to_exclude
        added_excludes := pySorted new_excludes
        removed_excludes := pySorted moving_to_include
        count_changed := countChanged }
    conflicts := conflicts }

/-! ### Order infrastructure for `pyle` -/

theorem char_toNat_inj {a b : Char} (h : a.toNat = b.toNat) : a = b :=
  Char.ext (UInt32.ext h)

theorem string_data_inj {a b : String} (h : a.data = b.data) : a = b := by
  cases a; cases b; simp_all

theorem strLeList_cons_iff (a b : Char) (as bs : List Char) :
    strLeList (a :: as) (b :: bs) = true ↔
      a.toNat < b.toNat ∨ (a.toNat = b.toNat ∧ strLeList as bs = true) := by
  simp only [strLeList]
  split_ifs with h1 h2
  · simp [h1]
  · simp; omega
  · have : a.toNat = b.toNat := by omega
    simp [this]

theorem strLeList_total : ∀ as bs : List Char,
    strLeList as bs = true ∨ strLeList bs as = true
  | [], _ => Or.inl rfl
  | _ :: _, [] => Or.inr rfl
  | a :: as, b :: bs => by
    rcases Nat.lt_trichotomy a.toNat b.toNat with h | h | h
    · exact Or.inl ((strLeList_cons_iff a b as bs).mpr (Or.inl h))
    · rcases strLeList_total as bs with h' | h'
      · exact Or.inl ((strLeList_cons_iff a b as bs).mpr (Or.inr ⟨h, h'⟩))
      · exact Or.inr ((strLeList_cons_iff b a bs as).mpr (Or.inr ⟨h.symm, h'⟩))
    · exact Or.inr ((strLeList_cons_iff b a bs as).mpr (Or.inl h))

theorem strLeList_trans : ∀ as bs cs : List Char,
    strLeList as bs = true → strLeList bs cs = true → strLeList as cs = true
  | [], _, _ => by intro _ _; rfl
  | _ :: _, [], _ => by intro h; cases h
  | _ :: _, _ :: _, [] => by intro _ h; cases h
  | a :: as, b :: bs, c :: cs => by
    intro h1 h2
    rw [strLeList_cons_iff] at h1 h2 ⊢
    rcases h1 with h1 | ⟨h1e, h1r⟩
    · rcases h2 with h2 | ⟨h2e, _⟩
      · exact Or.inl (h1.trans h2)
      · exact Or.inl (h2e ▸ h1)
    · rcases h2 with h2 | ⟨h2e, h2r⟩
      · exact Or.inl (h1e ▸ h2)
      · exact Or.inr ⟨h1e.trans h2e, strLeList_trans as bs cs h1r h2r⟩

theorem strLeList_antisymm : ∀ as bs : List Char,
    strLeList as bs = true → strLeList bs as = true → as = bs
  | [], [] => by intro _ _; rfl
  | [], _ :: _ => by intro _ h; cases h
  | _ :: _, [] => by intro h; cases h
  | a :: as, b :: bs => by
    intro h1 h2
    rw [strLeList_cons_iff] at h1 h2
    rcases h1 with h1 | ⟨h1e, h1r⟩
    · rcases h2 with h2 | ⟨h2e, _⟩ <;> omega
    · rcases h2 with h2 | ⟨_, h2r⟩
      · omega
      · rw [char_toNat_inj h1e, strLeList_antisymm as bs h1r h2r]

instance : IsTotal String pyle :=
  ⟨fun a b => strLeList_total a.data b.data⟩

instance : IsTrans String pyle :=
  ⟨fun a b c => strLeList_trans a.data b.data c.data⟩

instance : IsAntisymm String pyle :=
  ⟨fun a b h1 h2 => string_data_inj (strLeList_antisymm a.data b.data h1 h2)⟩

instance : IsRefl String pyle :=
  ⟨fun a => (strLeList_total a.data a.data).elim id id⟩

/-! ### Properties of `pySorted`, `listDiff`, `listInter` -/

theorem pySorted_sorted (l : List String) : (pySorted l).Sorted pyle :=
  List.sorted_insertionSort pyle l.dedup

theorem pySorted_nodup (l : List String) : (pySorted l).Nodup :=
  ((List.perm_insertionSort pyle l.dedup).nodup_iff).mpr l.nodup_dedup

theorem pySorted_mem {x : String} {l : List String} : x ∈ pySorted l ↔ x ∈ l := by
  simp [pySorted, List.mem_insertionSort, List.mem_dedup]

theorem pySorted_toFinset (l : List String) : (pySorted l).toFinset = l.toFinset := by
  ext x; simp [pySorted_mem]

theorem mem_listDiff {x : String} {s t : List String} :
    x ∈ listDiff s t ↔ x ∈ s ∧ x ∉ t := by
  simp [listDiff, List.mem_filter]

theorem mem_listInter {x : String} {s t : List String} :
    x ∈ listInter s t ↔ x ∈ s ∧ x ∈ t := by
  simp [listInter, List.mem_filter]

/-! ### Characterisation of the merged sets -/

theorem merge_include_toFinset (base patch : RecipeQuery) :
    (merge_recipe_query_v2 base patch).merged_query.include_ingredients.toFinset
      = (base.include_ingredients.toFinset ∪ patch.include_ingredients.toFinset)
          \ patch.exclude_ingredients.toFinset := by
  ext x
  simp [merge_recipe_query_v2, pySorted_mem, mem_listDiff, List.mem_append,
    Finset.mem_sdiff, Finset.mem_union, List.mem_toFinset, or_and_right]

theorem merge_exclude_toFinset (base patch : RecipeQuery) :
    (merge_recipe_query_v2 base patch).merged_query.exclude_ingredients.toFinset
      = (base.exclude_ingredients.toFinset ∪ patch.exclude_ingredients.toFinset)
          \ patch.include_ingredients.toFinset := by
  ext x
  simp [merge_recipe_query_v2, pySorted_mem, mem_listDiff, List.mem_append,
    Finset.mem_sdiff, Finset.mem_union, List.mem_toFinset, or_and_right]

/-- C1: for every base query and patch query, `merge_recipe_query_v2` returns
a merged query whose include set equals
`(base.include ∪ patch.include) − patch.exclude` and whose exclude set equals
`(base.exclude ∪ patch.exclude) − patch.include`, and both are emitted as
ascending sorted (duplicate-free) sequences in Python's string order. -/
theorem merge_sets_are_union_diff_and_sorted (base patch : RecipeQuery) :
    (merge_recipe_query_v2 base patch).merged_query.include_ingredients.toFinset
        = (base.include_ingredients.toFinset ∪ patch.include_ingredients.toFinset)
            \ patch.exclude_ingredients.toFinset
    ∧ (merge_recipe_query_v2 base patch).merged_query.exclude_ingredients.toFinset
        = (base.exclude_ingredients.toFinset ∪ patch.exclude_ingredients.toFinset)
            \ patch.include_ingredients.toFinset
    ∧ (merge_recipe_query_v2 base patch).merged_query.include_ingredients.Sorted pyle
    ∧ (merge_recipe_query_v2 base patch).merged_query.include_ingredients.Nodup
    ∧ (merge_recipe_query_v2 base patch).merged_query.exclude_ingredients.Sorted pyle
    ∧ (merge_recipe_query_v2 base patch).merged_query.exclude_ingredients.Nodup := by
  refine ⟨merge_include_toFinset base patch, merge_exclude_toFinset base patch, ?_, ?_, ?_, ?_⟩ <;>
    simp only [merge_recipe_query_v2] <;>
    first
      | exact pySorted_sorted _
      | exact pySorted_nodup _

/-! ### Disjointness of the merged sets -/

/-- Apply a sequence of merges to a starting query, as successive
continuation turns do (`state.current_recipe_query = merge_result.merged_query`). -/
def applyMerges (base : RecipeQuery) (patches : List RecipeQuery) : RecipeQuery :=
  patches.foldl (fun q p => (merge_recipe_query_v2 q p).merged_query) base

theorem merge_step_disjoint {base patch : RecipeQuery}
    (h : ∀ x ∈ base.include_ingredients, x ∉ base.exclude_ingredients) :
    ∀ x ∈ (merge_recipe_query_v2 base patch).merged_query.include_ingredients,
      x ∉ (merge_recipe_query_v2 base patch).merged_query.exclude_ingredients := by
  intro x hx hx'
  have h1 : x ∈ (base.include_ingredients.toFinset ∪ patch.include_ingredients.toFinset)
      \ patch.exclude_ingredients.toFinset := by
    rw [← merge_include_toFinset]; simpa using hx
  have h2 : x ∈ (base.exclude_ingredients.toFinset ∪ patch.exclude_ingredients.toFinset)
      \ patch.include_ingredients.toFinset := by
    rw [← merge_exclude_toFinset]; simpa using hx'
  simp only [Finset.mem_sdiff, Finset.mem_union, List.mem_toFinset] at h1 h2
  rcases h1 with ⟨h1a | h1b, h1c⟩
  · rcases h2 with ⟨h2a | h2b, _⟩
    · exact h x h1a h2a
    · exact h1c h2b
  · exact h2.2 h1b

/-- C2 (amended): starting from a query whose include and exclude sets are
disjoint, after any sequence of merges the resulting include and exclude
sets never intersect. -/
theorem merge_disjointness_invariant (base : RecipeQuery) (patches : List RecipeQuery)
    (h : ∀ x ∈ base.include_ingredients, x ∉ base.exclude_ingredients) :
    ∀ x ∈ (applyMerges base patches).include_ingredients,
      x ∉ (applyMerges base patches).exclude_ingredients := by
  induction patches generalizing base with
  | nil => exact h
  | cons p ps ih => exact ih _ (merge_step_disjoint h)

/-- C2 witness: a concrete run of `merge_disjointness_invariant`: starting
from the disjoint query `{include = [a, b]; exclude = [c]}` and merging the
patch `{include = [c]}`, the term `c` is not in the resulting exclude set. -/
theorem merge_disjointness_invariant_witness :
    "c" ∉ (applyMerges ⟨"q", ["a", "b"], ["c"], 5⟩
        [⟨"p", ["c"], [], 5⟩]).exclude_ingredients :=
  merge_disjointness_invariant ⟨"q", ["a", "b"], ["c"], 5⟩ [⟨"p", ["c"], [], 5⟩]
    (by decide) "c" (by decide)

/-- C2 counterexample: the claim fails as stated (for an arbitrary starting
`StructuredQuery`): starting from a query that already lists `a` on both
sides and merging one patch that does not mention `a`, the merged include and
exclude sets both still contain `a`, so they intersect. -/
theorem merge_disjointness_fails_for_overlapping_base :
    "a" ∈ (applyMerges ⟨"q", ["a"], ["a"], 5⟩ [⟨"p", [], [], 5⟩]).include_ingredients
    ∧ "a" ∈ (applyMerges ⟨"q", ["a"], ["a"], 5⟩ [⟨"p", [], [], 5⟩]).exclude_ingredients := by
  decide

/-! ### Field-level description of the merge result -/

theorem merge_include_eq (base patch : RecipeQuery) :
    (merge_recipe_query_v2 base patch).merged_query.include_ingredients
      = pySorted (listDiff (base.include_ingredients ++ patch.include_ingredients)
          patch.exclude_ingredients) := rfl

theorem merge_exclude_eq (base patch : RecipeQuery) :
    (merge_recipe_query_v2 base patch).merged_query.exclude_ingredients
      = pySorted (listDiff (base.exclude_ingredients ++ patch.exclude_ingredients)
          patch.include_ingredients) := rfl

theorem merge_added_includes_eq (base patch : RecipeQuery) :
    (merge_recipe_query_v2 base patch).changes.added_includes
      = pySorted (listDiff patch.include_ingredients base.include_ingredients) := rfl

theorem merge_added_excludes_eq (base patch : RecipeQuery) :
    (merge_recipe_query_v2 base patch).changes.added_excludes
      = pySorted (listDiff patch.exclude_ingredients base.exclude_ingredients) := rfl

theorem merge_removed_includes_eq (base patch : RecipeQuery) :
    (merge_recipe_query_v2 base patch).changes.removed_includes
      = pySorted (listInter base.include_ingredients patch.exclude_ingredients) := rfl

theorem merge_removed_excludes_eq (base patch : RecipeQuery) :
    (merge_recipe_query_v2 base patch).changes.removed_excludes
      = pySorted (listInter base.exclude_ingredients patch.include_ingredients) := rfl

theorem merge_conflicts_eq (base patch : RecipeQuery) :
    (merge_recipe_query_v2 base patch).conflicts
      = (pySorted (listInter base.include_ingredients patch.exclude_ingredients)).map
          conflictIncToExc
        ++ (pySorted (listInter base.exclude_ingredients patch.include_ingredients)).map
          conflictExcToInc := rfl

theorem mem_merge_include {base patch : RecipeQuery} {x : String} :
    x ∈ (merge_recipe_query_v2 base patch).merged_query.include_ingredients ↔
      (x ∈ base.include_ingredients ∨ x ∈ patch.include_ingredients)
        ∧ x ∉ patch.exclude_ingredients := by
  rw [merge_include_eq]
  simp [pySorted_mem, mem_listDiff, List.mem_append]

theorem mem_merge_exclude {base patch : RecipeQuery} {x : String} :
    x ∈ (merge_recipe_query_v2 base patch).merged_query.exclude_ingredients ↔
      (x ∈ base.exclude_ingredients ∨ x ∈ patch.exclude_ingredients)
        ∧ x ∉ patch.include_ingredients := by
  rw [merge_exclude_eq]
  simp [pySorted_mem, mem_listDiff, List.mem_append]

/-! ### Re-merging the same patch -/

theorem listDiff_eq_nil {s t : List String} (h : ∀ x ∈ s, x ∈ t) :
    listDiff s t = [] := by
  apply List.filter_eq_nil_iff.mpr
  intro x hx
  simp [h x hx]

theorem listInter_eq_nil {s t : List String} (h : ∀ x ∈ s, x ∉ t) :
    listInter s t = [] := by
  apply List.filter_eq_nil_iff.mpr
  intro x hx
  simp [h x hx]

/-- C3 (amended): provided the patch's own include and exclude sets are
disjoint, re-merging the already-merged result with the same patch yields
changes with empty `added_includes`, empty `added_excludes`, and an empty
`conflicts` list. -/
theorem remerge_same_patch_adds_nothing (A B : RecipeQuery)
    (h : ∀ x ∈ B.include_ingredients, x ∉ B.exclude_ingredients) :
    (merge_recipe_query_v2 (merge_recipe_query_v2 A B).merged_query B).changes.added_includes = []
    ∧ (merge_recipe_query_v2 (merge_recipe_query_v2 A B).merged_query B).changes.added_excludes = []
    ∧ (merge_recipe_query_v2 (merge_recipe_query_v2 A B).merged_query B).conflicts = [] := by
  refine ⟨?_, ?_, ?_⟩
  · rw [merge_added_includes_eq, listDiff_eq_nil]
    · rfl
    · intro x hx
      exact mem_merge_include.mpr ⟨Or.inr hx, h x hx⟩
  · rw [merge_added_excludes_eq, listDiff_eq_nil]
    · rfl
    · intro x hx
      refine mem_merge_exclude.mpr ⟨Or.inr hx, fun hx' => h x hx' hx⟩
  · rw [merge_conflicts_eq, listInter_eq_nil, listInter_eq_nil]
    · rfl
    · intro x hx
      exact (mem_merge_exclude.mp hx).2
    · intro x hx
      exact (mem_merge_include.mp hx).2

/-- C3 witness: a concrete run of `remerge_same_patch_adds_nothing` for
`A = {include = [a]}`, `B = {include = [b]; exclude = [c]}`. -/
theorem remerge_same_patch_adds_nothing_witness :
    (merge_recipe_query_v2
        (merge_recipe_query_v2 ⟨"q", ["a"], [], 5⟩ ⟨"p", ["b"], ["c"], 5⟩).merged_query
        ⟨"p", ["b"], ["c"], 5⟩).changes.added_includes = []
    ∧ (merge_recipe_query_v2
        (merge_recipe_query_v2 ⟨"q", ["a"], [], 5⟩ ⟨"p", ["b"], ["c"], 5⟩).merged_query
        ⟨"p", ["b"], ["c"], 5⟩).changes.added_excludes = []
    ∧ (merge_recipe_query_v2
        (merge_recipe_query_v2 ⟨"q", ["a"], [], 5⟩ ⟨"p", ["b"], ["c"], 5⟩).merged_query
        ⟨"p", ["b"], ["c"], 5⟩).conflicts = [] :=
  remerge_same_patch_adds_nothing ⟨"q", ["a"], [], 5⟩ ⟨"p", ["b"], ["c"], 5⟩ (by decide)

/-- C3 counterexample: the claim fails as stated when the patch lists the
same term on both sides.  With `A` empty and `B = {include = [x]; exclude =
[x]}`, the first merge cancels `x` out of both sets, so re-merging `B`
reports `x` as freshly added on both sides: `added_includes` and
`added_excludes` are `[x]`, not empty. -/
theorem remerge_same_patch_fails_for_self_conflicting_patch :
    (merge_recipe_query_v2
        (merge_recipe_query_v2 ⟨"q", [], [], 5⟩ ⟨"p", ["x"], ["x"], 5⟩).merged_query
        ⟨"p", ["x"], ["x"], 5⟩).changes.added_includes = ["x"]
    ∧ (merge_recipe_query_v2
        (merge_recipe_query_v2 ⟨"q", [], [], 5⟩ ⟨"p", ["x"], ["x"], 5⟩).merged_query
        ⟨"p", ["x"], ["x"], 5⟩).changes.added_excludes = ["x"] := by
  decide

/-! ### Case sensitivity of the merge -/

/-- ASCII lowercasing of a character (Python `str.lower` / SQL `LOWER`,
restricted to the ASCII range, which is all the embedding needs). -/
def lowerChar (c : Char) : Char :=
  if 65 ≤ c.toNat ∧ c.toNat ≤ 90 then Char.ofNat (c.toNat + 32) else c

/-- ASCII lowercasing of a string (Python `str.lower` / SQL `LOWER`). -/
def pyLower (s : String) : String := ⟨s.data.map lowerChar⟩

theorem pySorted_singleton (s : String) : pySorted [s] = [s] := by
  simp [pySorted, List.insertionSort, List.orderedInsert]

/-- C9 (amended): the merge operates with set semantics over exact strings —
deduplication, cross-category conflict detection, and the union/difference
steps of `merge_recipe_query_v2` all compare terms by exact (case-sensitive)
string equality, so two terms differing only in letter case are distinct
elements: merging a base including `s` with a patch excluding `t`, where
`s ≠ t` even though they agree up to case, detects no conflict and keeps
both terms. -/
theorem merge_is_case_sensitive (q1 q2 s t : String)
    (hne : s ≠ t) (_hcase : pyLower s = pyLower t) :
    (merge_recipe_query_v2 ⟨q1, [s], [], 5⟩ ⟨q2, [], [t], 5⟩).conflicts = []
    ∧ (merge_recipe_query_v2 ⟨q1, [s], [], 5⟩ ⟨q2, [], [t], 5⟩).merged_query.include_ingredients
        = [s]
    ∧ (merge_recipe_query_v2 ⟨q1, [s], [], 5⟩ ⟨q2, [], [t], 5⟩).merged_query.exclude_ingredients
        = [t] := by
  refine ⟨?_, ?_, ?_⟩
  · rw [merge_conflicts_eq]
    have h1 : listInter [s] [t] = [] := by simp [listInter, hne]
    have h2 : listInter ([] : List String) [s] = [] := rfl
    simp only [h1, h2]
    rfl
  · rw [merge_include_eq]
    have : listDiff ([s] ++ []) [t] = [s] := by simp [listDiff, hne]
    rw [this, pySorted_singleton]
  · rw [merge_exclude_eq]
    have : listDiff [t] ([] : List String) = [t] := by simp [listDiff]
    simp only [List.nil_append] at this ⊢
    rw [this, pySorted_singleton]

/-- C9 witness: `merge_is_case_sensitive` at `s = "Chicken"`, `t = "chicken"`. -/
theorem merge_is_case_sensitive_witness :
    (merge_recipe_query_v2 ⟨"q", ["Chicken"], [], 5⟩
        ⟨"p", [], ["chicken"], 5⟩).conflicts = []
    ∧ (merge_recipe_query_v2 ⟨"q", ["Chicken"], [], 5⟩
        ⟨"p", [], ["chicken"], 5⟩).merged_query.include_ingredients = ["Chicken"]
    ∧ (merge_recipe_query_v2 ⟨"q", ["Chicken"], [], 5⟩
        ⟨"p", [], ["chicken"], 5⟩).merged_query.exclude_ingredients = ["chicken"] :=
  merge_is_case_sensitive "q" "p" "Chicken" "chicken" (by decide) (by decide)

/-- C9 counterexample: the claim fails as stated.  If case-differing terms
were identified, excluding `chicken` against a base that includes `Chicken`
would be a cross-category conflict (moving the term to exclude); the code
instead reports no conflict and leaves `Chicken` in the include set while
adding `chicken` to the exclude set. -/
theorem merge_case_insensitivity_refuted :
    (merge_recipe_query_v2 ⟨"q", ["Chicken"], [], 5⟩
        ⟨"p", [], ["chicken"], 5⟩).conflicts = []
    ∧ "Chicken" ∈ (merge_recipe_query_v2 ⟨"q", ["Chicken"], [], 5⟩
        ⟨"p", [], ["chicken"], 5⟩).merged_query.include_ingredients
    ∧ "chicken" ∈ (merge_recipe_query_v2 ⟨"q", ["Chicken"], [], 5⟩
        ⟨"p", [], ["chicken"], 5⟩).merged_query.exclude_ingredients
    ∧ pyLower "Chicken" = pyLower "chicken" := by
  decide

/-! ### Conflict-message injectivity and the self-conflicting-patch behaviour -/

theorem singleton_quote_data : (String.singleton quoteChar).data = [quoteChar] := rfl

theorem conflictIncToExc_inj {y t : String} (h : conflictIncToExc y = conflictIncToExc t) :
    y = t := by
  have hd := congrArg String.data h
  simp only [conflictIncToExc, String.data_append, singleton_quote_data,
    List.append_assoc, List.singleton_append] at hd
  have h2 := List.append_cancel_right hd
  injection h2 with _ h3
  exact string_data_inj h3

theorem conflictExcToInc_inj {y t : String} (h : conflictExcToInc y = conflictExcToInc t) :
    y = t := by
  have hd := congrArg String.data h
  simp only [conflictExcToInc, String.data_append, singleton_quote_data,
    List.append_assoc, List.singleton_append] at hd
  have h2 := List.append_cancel_right hd
  injection h2 with _ h3
  exact string_data_inj h3

theorem conflictExcToInc_ne_conflictIncToExc (y t : String) :
    conflictExcToInc y ≠ conflictIncToExc t := by
  intro h
  have hd := congrArg String.data h
  simp only [conflictExcToInc, conflictIncToExc, String.data_append, singleton_quote_data,
    List.append_assoc, List.singleton_append] at hd
  have hlen := congrArg List.length hd
  simp only [List.length_append, List.length_cons, List.length_nil] at hlen
  have hfl : (quoteChar :: y.data).length = (quoteChar :: t.data).length := by
    simp only [List.length_cons]
    omega
  have := (List.append_inj hd hfl).2
  exact absurd this (by decide)

/-- C10: a term occurring in both `patch.include_ingredients` and
`patch.exclude_ingredients` and in neither set of the base query is reported
in both `changes.added_includes` and `changes.added_excludes`, generates no
conflict entry, and ends up in neither side of the merged query. -/
theorem merge_self_conflicting_patch_term (base patch : RecipeQuery) (t : String)
    (h1 : t ∈ patch.include_ingredients) (h2 : t ∈ patch.exclude_ingredients)
    (h3 : t ∉ base.include_ingredients) (h4 : t ∉ base.exclude_ingredients) :
    t ∈ (merge_recipe_query_v2 base patch).changes.added_includes
    ∧ t ∈ (merge_recipe_query_v2 base patch).changes.added_excludes
    ∧ conflictIncToExc t ∉ (merge_recipe_query_v2 base patch).conflicts
    ∧ conflictExcToInc t ∉ (merge_recipe_query_v2 base patch).conflicts
    ∧ t ∉ (merge_recipe_query_v2 base patch).merged_query.include_ingredients
    ∧ t ∉ (merge_recipe_query_v2 base patch).merged_query.exclude_ingredients := by
  refine ⟨?_, ?_, ?_, ?_, ?_, ?_⟩
  · rw [merge_added_includes_eq]
    exact pySorted_mem.mpr (mem_listDiff.mpr ⟨h1, h3⟩)
  · rw [merge_added_excludes_eq]
    exact pySorted_mem.mpr (mem_listDiff.mpr ⟨h2, h4⟩)
  · rw [merge_conflicts_eq]
    intro hmem
    rcases List.mem_append.mp hmem with hmem | hmem
    · rcases List.mem_map.mp hmem with ⟨y, hy, hyt⟩
      have := conflictIncToExc_inj hyt
      subst this
      exact h3 (mem_listInter.mp (pySorted_mem.mp hy)).1
    · rcases List.mem_map.mp hmem with ⟨y, _, hyt⟩
      exact conflictExcToInc_ne_conflictIncToExc y t hyt
  · rw [merge_conflicts_eq]
    intro hmem
    rcases List.mem_append.mp hmem with hmem | hmem
    · rcases List.mem_map.mp hmem with ⟨y, _, hyt⟩
      exact conflictExcToInc_ne_conflictIncToExc t y hyt.symm
    · rcases List.mem_map.mp hmem with ⟨y, hy, hyt⟩
      have := conflictExcToInc_inj hyt
      subst this
      exact h4 (mem_listInter.mp (pySorted_mem.mp hy)).1
  · intro hmem
    exact (mem_merge_include.mp hmem).2 h2
  · intro hmem
    exact (mem_merge_exclude.mp hmem).2 h1

/-- C10 witness: `merge_self_conflicting_patch_term` at base
`{include = [a]}`, patch `{include = [x]; exclude = [x]}`, term `x`. -/
theorem merge_self_conflicting_patch_term_witness :
    "x" ∈ (merge_recipe_query_v2 ⟨"q", ["a"], [], 5⟩
        ⟨"p", ["x"], ["x"], 5⟩).changes.added_includes
    ∧ "x" ∈ (merge_recipe_query_v2 ⟨"q", ["a"], [], 5⟩
        ⟨"p", ["x"], ["x"], 5⟩).changes.added_excludes
    ∧ conflictIncToExc "x" ∉ (merge_recipe_query_v2 ⟨"q", ["a"], [], 5⟩
        ⟨"p", ["x"], ["x"], 5⟩).conflicts
    ∧ conflictExcToInc "x" ∉ (merge_recipe_query_v2 ⟨"q", ["a"], [], 5⟩
        ⟨"p", ["x"], ["x"], 5⟩).conflicts
    ∧ "x" ∉ (merge_recipe_query_v2 ⟨"q", ["a"], [], 5⟩
        ⟨"p", ["x"], ["x"], 5⟩).merged_query.include_ingredients
    ∧ "x" ∉ (merge_recipe_query_v2 ⟨"q", ["a"], [], 5⟩
        ⟨"p", ["x"], ["x"], 5⟩).merged_query.exclude_ingredients :=
  merge_self_conflicting_patch_term ⟨"q", ["a"], [], 5⟩ ⟨"p", ["x"], ["x"], 5⟩ "x"
    (by decide) (by decide) (by decide) (by decide)

/-! ### Conversation state machine (`chat_service.process_user_message`) -/

/-- `chat_service.ConversationState`. -/
structure ConversationState where
  conversation_id : Nat
  turn_counter : Nat
  current_recipe_query : Option RecipeQuery
  current_tags : Option TagsSemanticSchema
  history : List String
deriving DecidableEq, Repr

/-- `chat_service.ProcessedMessage`. -/
structure ProcessedMessage where
  query : RecipeQuery
  tags : TagsSemanticSchema
  is_continuation : Bool
  changes : Option MergeChanges := none
  conflicts : Option (List String) := none
deriving DecidableEq, Repr

/-- The external natural-language capability used by the state machine
(`llm_service.LLMService`), abstracted as pure functions of the text, as
the spec treats it. -/
structure LLMService where
  extract_recipe_query : String → RecipeQuery
  extract_tags : String → TagsSemanticSchema
  check_continue : List String → String → Bool × String

/-- `chat_service.ChatService.process_user_message`, as a pure transition on
the conversation state.  First turn (`turn_counter = 0`): extract query and
tags, store both, `turn_counter := 1`.  Otherwise ask `check_continue` on
the prior history plus the new message: on continuation, extract a patch
from the new message only, merge it into the current query, keep the tags
(`tags=state.current_tags`, not re-extracted), append to history and bump
the counter; on reset, re-extract both, replace the history with just the
new message and set `turn_counter := 1`.  The `Option.getD` defaults are
never reached from states this function produces (`turn_counter ≥ 1`
implies both fields are set); in Python that path would raise an
`AttributeError`. -/
def process_user_message (llm : LLMService) (state : ConversationState)
    (user_message : String) : ProcessedMessage × ConversationState :=
  if state.turn_counter = 0 then
    let q := llm.extract_recipe_query user_message
    let t := llm.extract_tags user_message
    (⟨q, t, false, none, none⟩,
     { state with
        history := state.history ++ [user_message]
        current_recipe_query := some q
        current_tags := some t
        turn_counter := 1 })
  else
    let cont := llm.check_continue state.history user_message
    if cont.1 then
      let patch_query := llm.extract_recipe_query user_message
      let mr := merge_recipe_query_v2 (state.current_recipe_query.getD ⟨"", [], [], 5⟩)
        patch_query
      (⟨mr.merged_query, state.current_tags.getD {}, true, some mr.changes, some mr.conflicts⟩,
       { state with
          history := state.history ++ [user_message]
          current_recipe_query := some mr.merged_query
          turn_counter := state.turn_counter + 1 })
    else
      let q := llm.extract_recipe_query user_message
      let t := llm.extract_tags user_message
      (⟨q, t, false, none, none⟩,
       { state with
          history := [user_message]
          current_recipe_query := some q
          current_tags := some t
          turn_counter := 1 })

theorem merge_query_eq (base patch : RecipeQuery) :
    (merge_recipe_query_v2 base patch).merged_query.query = base.query := rfl

/-- C7: on every continuation turn (the continuation classifier returned
`true`), the merged query's free-text intent equals the base query's intent
verbatim, the returned tags are the conversation's current tags unchanged,
they stay stored unchanged, and the whole outcome is independent of the tag
extractor (tags are not re-extracted). -/
theorem continuation_keeps_intent_and_tags (llm : LLMService)
    (state : ConversationState) (msg : String) (q : RecipeQuery)
    (t : TagsSemanticSchema) (h0 : state.turn_counter ≠ 0)
    (hq : state.current_recipe_query = some q) (ht : state.current_tags = some t)
    (hc : (llm.check_continue state.history msg).1 = true) :
    (process_user_message llm state msg).1.query.query = q.query
    ∧ (process_user_message llm state msg).1.tags = t
    ∧ (process_user_message llm state msg).2.current_tags = some t
    ∧ ∀ f, process_user_message { llm with extract_tags := f } state msg
        = process_user_message llm state msg := by
  have hunfold : ∀ g, process_user_message { llm with extract_tags := g } state msg
      = (⟨(merge_recipe_query_v2 (state.current_recipe_query.getD ⟨"", [], [], 5⟩)
              (llm.extract_recipe_query msg)).merged_query,
          state.current_tags.getD {}, true,
          some (merge_recipe_query_v2 (state.current_recipe_query.getD ⟨"", [], [], 5⟩)
              (llm.extract_recipe_query msg)).changes,
          some (merge_recipe_query_v2 (state.current_recipe_query.getD ⟨"", [], [], 5⟩)
              (llm.extract_recipe_query msg)).conflicts⟩,
         { state with
            history := state.history ++ [msg]
            current_recipe_query :=
              some (merge_recipe_query_v2 (state.current_recipe_query.getD ⟨"", [], [], 5⟩)
                (llm.extract_recipe_query msg)).merged_query
            turn_counter := state.turn_counter + 1 }) := by
    intro g
    rw [process_user_message, if_neg h0, if_pos hc]
  have hmain := hunfold llm.extract_tags
  have hllm : { llm with extract_tags := llm.extract_tags } = llm := rfl
  rw [hllm] at hmain
  refine ⟨?_, ?_, ?_, ?_⟩
  · rw [hmain]
    simp only [hq, Option.getD_some, merge_query_eq]
  · rw [hmain]
    simp only [ht, Option.getD_some]
  · rw [hmain]
    simp only [ht]
  · intro f
    rw [hunfold f, hmain]

/-- C7 witness: a concrete continuation turn.  The base intent `"pasta"` and
the stored tags (cuisine `"italian"`) survive a continuation that adds
`"basil"`, with any tag extractor. -/
theorem continuation_keeps_intent_and_tags_witness :
    (process_user_message
        ⟨fun m => ⟨m, [m], [], 5⟩, fun _ => {}, fun _ _ => (true, "refines")⟩
        ⟨7, 1, some ⟨"pasta", ["tomatoes"], [], 5⟩,
          some { CUISINES_REGIONAL := "italian" }, ["msg1"]⟩
        "basil").1.query.query = "pasta"
    ∧ (process_user_message
        ⟨fun m => ⟨m, [m], [], 5⟩, fun _ => {}, fun _ _ => (true, "refines")⟩
        ⟨7, 1, some ⟨"pasta", ["tomatoes"], [], 5⟩,
          some { CUISINES_REGIONAL := "italian" }, ["msg1"]⟩
        "basil").1.tags = { CUISINES_REGIONAL := "italian" } := by
  have h := continuation_keeps_intent_and_tags
    ⟨fun m => ⟨m, [m], [], 5⟩, fun _ => {}, fun _ _ => (true, "refines")⟩
    ⟨7, 1, some ⟨"pasta", ["tomatoes"], [], 5⟩,
      some { CUISINES_REGIONAL := "italian" }, ["msg1"]⟩
    "basil" ⟨"pasta", ["tomatoes"], [], 5⟩ { CUISINES_REGIONAL := "italian" }
    (by decide) rfl rfl rfl
  exact ⟨h.1, h.2.1⟩

/-! ### `llm_service.check_continue` error handling -/

/-- `llm_service.LLMService.check_continue`, with the external effect made
explicit: `resp` is the outcome of the Ollama chat call plus JSON parse —
`Except.ok` carries the parsed optional `continue` and `reason` fields
(read with `result.get("continue", False)` / `result.get("reason", "")`),
`Except.error` is any raised exception.  The Python `except` block logs and
returns `(False, "Error in continuation check")`. -/
def check_continue_of_response (resp : Except String (Option Bool × Option String)) :
    Bool × String :=
  match resp with
  | .ok r => (r.1.getD false, r.2.getD "")
  | .error _ => (false, "Error in continuation check")

/-- C8: if the external continuation check raises, `check_continue` returns
`continue = false` together with a (non-empty) reason string instead of
raising, so the turn is handled as a reset. -/
theorem check_continue_error_defaults_to_reset
    (resp : Except String (Option Bool × Option String)) (e : String)
    (h : resp = .error e) :
    check_continue_of_response resp = (false, "Error in continuation check")
    ∧ (check_continue_of_response resp).2 ≠ "" := by
  subst h
  refine ⟨rfl, ?_⟩
  show ("Error in continuation check" : String) ≠ ""
  decide

/-- C8 witness: `check_continue_error_defaults_to_reset` at a concrete
connection error. -/
theorem check_continue_error_defaults_to_reset_witness :
    check_continue_of_response (.error "connection refused")
      = (false, "Error in continuation check") :=
  (check_continue_error_defaults_to_reset (.error "connection refused")
    "connection refused" rfl).1

/-! ### Term resolver (`recipe_service.resolve_ingredient_to_canonical`,
`recipe_service.resolve_tag`) -/

/-- A row of the `ingredients` table: canonical id and name (its embedding
is represented through `IngredientsTable.sim`). -/
structure IngredientRow where
  id : Nat
  canonical : String
deriving DecidableEq, Repr

/-- A row of the `ingredient_variants` table. -/
structure IngredientVariantRow where
  canonical_id : Nat
  variant : String
deriving DecidableEq, Repr

/-- The ingredient side of the term catalog.  `sim input i` is the cosine
similarity `1 - (i.embedding <=> encode(input))` between the embedding of
the input phrase and the stored embedding of ingredient id `i`. -/
structure IngredientsTable where
  ingredients : List IngredientRow
  ingredient_variants : List IngredientVariantRow
  sim : String → Nat → ℚ

/-- The SQL join `ingredients i JOIN ingredient_variants iv ON
i.id = iv.canonical_id`, in table order. -/
def ingredientJoin (tbl : IngredientsTable) : List (IngredientRow × IngredientVariantRow) :=
  tbl.ingredients.flatMap fun i =>
    (tbl.ingredient_variants.filter (fun v => v.canonical_id == i.id)).map fun v => (i, v)

/-- The exact-match query of `resolve_ingredient_to_canonical`:
`WHERE LOWER(iv.variant) = LOWER(%s)`, `fetchone` modelled as the first
matching ingredient in table order. -/
def exactIngredientMatch (tbl : IngredientsTable) (ingredient_name : String) :
    Option IngredientRow :=
  tbl.ingredients.find? fun i =>
    tbl.ingredient_variants.any fun v =>
      v.canonical_id == i.id && pyLower v.variant == pyLower ingredient_name

/-- `ORDER BY distance LIMIT 1`: the first element attaining the maximal
value of `f` (a deterministic tie-break; SQL leaves ties unspecified). -/
def bestBy {α : Type} (f : α → ℚ) : List α → Option α
  | [] => none
  | x :: xs =>
    match bestBy f xs with
    | none => some x
    | some y => if f x < f y then some y else some x

/-- The result dictionary of `resolve_ingredient_to_canonical`. -/
structure ResolvedIngredient where
  canonical_id : Nat
  canonical_name : String
  matched_variant : Option String
  confidence : ℚ
  method : String
deriving DecidableEq, Repr

/-- `recipe_service.RecipeService.resolve_ingredient_to_canonical`: exact
(case-insensitive) variant match first — confidence 1.0, method
`exact_match`; otherwise the nearest join row by embedding similarity among
those with similarity strictly above `confidence_threshold` (default 0.65);
`none` when nothing qualifies (a valid outcome — the function is total). -/
def resolve_ingredient_to_canonical (tbl : IngredientsTable) (ingredient_name : String)
    (confidence_threshold : ℚ := 65/100) : Option ResolvedIngredient :=
  match exactIngredientMatch tbl ingredient_name with
  | some i => some ⟨i.id, i.canonical, none, 1, "exact_match"⟩
  | none =>
    let cands := (ingredientJoin tbl).filter fun p =>
      confidence_threshold < tbl.sim ingredient_name p.1.id
    match bestBy (fun p => tbl.sim ingredient_name p.1.id) cands with
    | some p => some ⟨p.1.id, p.1.canonical, some p.2.variant,
        tbl.sim ingredient_name p.1.id, "embedding_match"⟩
    | none => none

/-- A row of the `tags` table. -/
structure TagRow where
  tag_name : String
  group_name : String
deriving DecidableEq, Repr

/-- The tag side of the term catalog; `sim input t` is the similarity
between the embedding of the input text and the stored embedding of row
`t`. -/
structure TagsTable where
  tags : List TagRow
  sim : String → TagRow → ℚ

/-- Whether a tag row passes the optional `tag_group` scope. -/
def tagGroupOk (tag_group : Option String) (t : TagRow) : Bool :=
  match tag_group with
  | some g => t.group_name == g
  | none => true

/-- The exact-match query of `resolve_tag`:
`WHERE LOWER(t.tag_name) = LOWER(%s)` (and `t.group_name = %s` when
scoped), `fetchone` modelled as the first matching row in table order. -/
def exactTagMatch (tbl : TagsTable) (tag_text : String) (tag_group : Option String) :
    Option TagRow :=
  tbl.tags.find? fun t =>
    pyLower t.tag_name == pyLower tag_text && tagGroupOk tag_group t

/-- The result dictionary of `resolve_tag`. -/
structure ResolvedTag where
  tag_name : String
  group_name : String
  confidence : ℚ
  method : String
deriving DecidableEq, Repr

/-- `recipe_service.RecipeService.resolve_tag`: exact (case-insensitive)
tag-name match first, optionally scoped by group — confidence 1.0, method
`exact_match`; otherwise the nearest in-scope tag by embedding similarity
among those strictly above `confidence_threshold` (default 0.7); `none`
when nothing qualifies. -/
def resolve_tag (tbl : TagsTable) (tag_text : String) (tag_group : Option String := none)
    (confidence_threshold : ℚ := 7/10) : Option ResolvedTag :=
  match exactTagMatch tbl tag_text tag_group with
  | some t => some ⟨t.tag_name, t.group_name, 1, "exact_match"⟩
  | none =>
    let cands := tbl.tags.filter fun t =>
      tagGroupOk tag_group t && decide (confidence_threshold < tbl.sim tag_text t)
    match bestBy (fun t => tbl.sim tag_text t) cands with
    | some t => some ⟨t.tag_name, t.group_name, tbl.sim tag_text t, "embedding_match"⟩
    | none => none

theorem bestBy_eq_none_iff {α : Type} (f : α → ℚ) (l : List α) :
    bestBy f l = none ↔ l = [] := by
  cases l with
  | nil => simp [bestBy]
  | cons a as =>
    simp only [bestBy]
    cases hb : bestBy f as with
    | none => simp
    | some y => by_cases hf : f a < f y <;> simp [hf]

theorem bestBy_mem {α : Type} (f : α → ℚ) :
    ∀ (l : List α) (x : α), bestBy f l = some x → x ∈ l
  | [], x => by intro h; cases h
  | a :: as, x => by
    intro h
    cases hb : bestBy f as with
    | none =>
      simp only [bestBy, hb] at h
      obtain rfl := Option.some.inj h
      exact List.mem_cons_self a as
    | some y =>
      simp only [bestBy, hb] at h
      by_cases hf : f a < f y
      · rw [if_pos hf] at h
        have hx := Option.some.inj h
        subst hx
        exact List.mem_cons_of_mem a (bestBy_mem f as _ hb)
      · rw [if_neg hf] at h
        obtain rfl := Option.some.inj h
        exact List.mem_cons_self a as

theorem bestBy_le {α : Type} (f : α → ℚ) :
    ∀ (l : List α) (x : α), bestBy f l = some x → ∀ y ∈ l, f y ≤ f x
  | [], x => by intro h; cases h
  | a :: as, x => by
    intro h y hy
    cases hb : bestBy f as with
    | none =>
      simp only [bestBy, hb] at h
      obtain rfl := Option.some.inj h
      have : as = [] := (bestBy_eq_none_iff f as).mp hb
      subst this
      rcases List.mem_cons.mp hy with rfl | hy
      · exact le_refl _
      · cases hy
    | some z =>
      simp only [bestBy, hb] at h
      by_cases hf : f a < f z
      · rw [if_pos hf] at h
        have hx := Option.some.inj h
        subst hx
        rcases List.mem_cons.mp hy with rfl | hy
        · exact le_of_lt hf
        · exact bestBy_le f as _ hb y hy
      · rw [if_neg hf] at h
        obtain rfl := Option.some.inj h
        rcases List.mem_cons.mp hy with rfl | hy
        · exact le_refl _
        · exact (bestBy_le f as z hb y hy).trans (not_lt.mp hf)

theorem resolve_ingredient_exact_eq (tbl : IngredientsTable) (name : String) (θ : ℚ)
    (i : IngredientRow) (hexact : exactIngredientMatch tbl name = some i) :
    resolve_ingredient_to_canonical tbl name θ
      = some ⟨i.id, i.canonical, none, 1, "exact_match"⟩ := by
  simp only [resolve_ingredient_to_canonical, hexact]

theorem resolve_ingredient_embedding_eq (tbl : IngredientsTable) (name : String) (θ : ℚ)
    (hexact : exactIngredientMatch tbl name = none) :
    resolve_ingredient_to_canonical tbl name θ
      = match bestBy (fun p => tbl.sim name p.1.id)
            ((ingredientJoin tbl).filter fun p => θ < tbl.sim name p.1.id) with
        | some p => some ⟨p.1.id, p.1.canonical, some p.2.variant,
            tbl.sim name p.1.id, "embedding_match"⟩
        | none => none := by
  simp only [resolve_ingredient_to_canonical, hexact]

theorem resolve_tag_exact_eq (tbl : TagsTable) (text : String) (grp : Option String) (θ : ℚ)
    (t : TagRow) (hexact : exactTagMatch tbl text grp = some t) :
    resolve_tag tbl text grp θ = some ⟨t.tag_name, t.group_name, 1, "exact_match"⟩ := by
  simp only [resolve_tag, hexact]

theorem resolve_tag_embedding_eq (tbl : TagsTable) (text : String) (grp : Option String)
    (θ : ℚ) (hexact : exactTagMatch tbl text grp = none) :
    resolve_tag tbl text grp θ
      = match bestBy (fun t => tbl.sim text t)
            (tbl.tags.filter fun t => tagGroupOk grp t && decide (θ < tbl.sim text t)) with
        | some t => some ⟨t.tag_name, t.group_name, tbl.sim text t, "embedding_match"⟩
        | none => none := by
  simp only [resolve_tag, hexact]

/-- C6: term resolution is two-staged.  A case-insensitive exact match
against the variant table wins with confidence 1.0 and method `exact_match`
(and the exact lookup only depends on the lowercased phrase); otherwise the
single nearest neighbour by embedding similarity is returned exactly when
its similarity strictly exceeds the threshold (default `0.65` for
ingredients, `0.70` for tags), and `none` — a valid outcome of the total
function, not an error — is returned when every candidate is at or below
the threshold. -/
theorem resolver_exact_then_embedding (itbl : IngredientsTable) (ttbl : TagsTable)
    (name text : String) (grp : Option String) (θ : ℚ) :
    (∀ name', pyLower name' = pyLower name →
        exactIngredientMatch itbl name' = exactIngredientMatch itbl name)
    ∧ (∀ i, exactIngredientMatch itbl name = some i →
        resolve_ingredient_to_canonical itbl name θ
          = some ⟨i.id, i.canonical, none, 1, "exact_match"⟩)
    ∧ (exactIngredientMatch itbl name = none →
        ∀ r, resolve_ingredient_to_canonical itbl name θ = some r →
          r.method = "embedding_match" ∧ θ < r.confidence
          ∧ (∃ p ∈ ingredientJoin itbl, r.canonical_id = p.1.id
                ∧ r.confidence = itbl.sim name p.1.id)
          ∧ ∀ q ∈ ingredientJoin itbl, itbl.sim name q.1.id ≤ r.confidence)
    ∧ (exactIngredientMatch itbl name = none →
        (∀ p ∈ ingredientJoin itbl, itbl.sim name p.1.id ≤ θ) →
          resolve_ingredient_to_canonical itbl name θ = none)
    ∧ resolve_ingredient_to_canonical itbl name
        = resolve_ingredient_to_canonical itbl name (65/100)
    ∧ (∀ t, exactTagMatch ttbl text grp = some t →
        resolve_tag ttbl text grp θ = some ⟨t.tag_name, t.group_name, 1, "exact_match"⟩)
    ∧ (exactTagMatch ttbl text grp = none →
        ∀ r, resolve_tag ttbl text grp θ = some r →
          r.method = "embedding_match" ∧ θ < r.confidence
          ∧ (∃ t ∈ ttbl.tags, tagGroupOk grp t = true ∧ r.tag_name = t.tag_name
                ∧ r.confidence = ttbl.sim text t)
          ∧ ∀ u ∈ ttbl.tags, tagGroupOk grp u = true → ttbl.sim text u ≤ r.confidence)
    ∧ (exactTagMatch ttbl text grp = none →
        (∀ t ∈ ttbl.tags, tagGroupOk grp t = true → ttbl.sim text t ≤ θ) →
          resolve_tag ttbl text grp θ = none)
    ∧ resolve_tag ttbl text grp = resolve_tag ttbl text grp (7/10) := by
  refine ⟨?_, ?_, ?_, ?_, rfl, ?_, ?_, ?_, rfl⟩
  · intro name' hlow
    simp only [exactIngredientMatch, hlow]
  · intro i hexact
    exact resolve_ingredient_exact_eq itbl name θ i hexact
  · intro hexact r hres
    rw [resolve_ingredient_embedding_eq itbl name θ hexact] at hres
    cases hbb : bestBy (fun p => itbl.sim name p.1.id)
        ((ingredientJoin itbl).filter fun p => θ < itbl.sim name p.1.id) with
    | none => rw [hbb] at hres; cases hres
    | some p =>
      rw [hbb] at hres
      have hr := Option.some.inj hres
      subst hr
      have hpmem := bestBy_mem _ _ _ hbb
      have hpfil := List.mem_filter.mp hpmem
      have hθ : θ < itbl.sim name p.1.id := by
        have := hpfil.2
        simpa using this
      refine ⟨rfl, hθ, ⟨p, hpfil.1, rfl, rfl⟩, ?_⟩
      intro q hq
      by_cases hqθ : θ < itbl.sim name q.1.id
      · exact bestBy_le _ _ _ hbb q (List.mem_filter.mpr ⟨hq, by simpa using hqθ⟩)
      · exact (not_lt.mp hqθ).trans (le_of_lt hθ)
  · intro hexact hall
    rw [resolve_ingredient_embedding_eq itbl name θ hexact]
    have hfil : (ingredientJoin itbl).filter
        (fun p => θ < itbl.sim name p.1.id) = [] := by
      apply List.filter_eq_nil_iff.mpr
      intro p hp
      simpa using not_lt.mpr (hall p hp)
    rw [hfil]
    rfl
  · intro t hexact
    exact resolve_tag_exact_eq ttbl text grp θ t hexact
  · intro hexact r hres
    rw [resolve_tag_embedding_eq ttbl text grp θ hexact] at hres
    cases hbb : bestBy (fun t => ttbl.sim text t)
        (ttbl.tags.filter fun t => tagGroupOk grp t && decide (θ < ttbl.sim text t)) with
    | none => rw [hbb] at hres; cases hres
    | some t =>
      rw [hbb] at hres
      have hr := Option.some.inj hres
      subst hr
      have htmem := bestBy_mem _ _ _ hbb
      have htfil := List.mem_filter.mp htmem
      have hgrp : tagGroupOk grp t = true := ((Bool.and_eq_true _ _).mp htfil.2).1
      have hθ : θ < ttbl.sim text t := by
        have := ((Bool.and_eq_true _ _).mp htfil.2).2
        simpa using this
      refine ⟨rfl, hθ, ⟨t, htfil.1, hgrp, rfl, rfl⟩, ?_⟩
      intro u hu hugrp
      by_cases huθ : θ < ttbl.sim text u
      · refine bestBy_le _ _ _ hbb u (List.mem_filter.mpr ⟨hu, ?_⟩)
        simp [hugrp, huθ]
      · exact (not_lt.mp huθ).trans (le_of_lt hθ)
  · intro hexact hall
    rw [resolve_tag_embedding_eq ttbl text grp θ hexact]
    have hfil : ttbl.tags.filter
        (fun t => tagGroupOk grp t && decide (θ < ttbl.sim text t)) = [] := by
      apply List.filter_eq_nil_iff.mpr
      intro t ht
      by_cases hg : tagGroupOk grp t = true
      · simp [hg, not_lt.mpr (hall t ht hg)]
      · simp [hg]
    rw [hfil]
    rfl

/-- C6 witness: concrete runs of `resolver_exact_then_embedding`.  `Tomatoes`
hits the variant `tomatoes` case-insensitively (confidence 1, exact_match);
an unmatched phrase resolves through the embedding path with similarity
above the threshold; a tag phrase whose best similarity is at the threshold
resolves to `none`. -/
theorem resolver_exact_then_embedding_witness :
    resolve_ingredient_to_canonical
        ⟨[⟨1, "tomato"⟩, ⟨2, "basil"⟩], [⟨1, "tomatoes"⟩, ⟨2, "basils"⟩],
          fun _ i => if i == 1 then 1 else 0⟩ "Tomatoes" (65/100)
      = some ⟨1, "tomato", none, 1, "exact_match"⟩
    ∧ (0 : ℚ) < 1
    ∧ resolve_tag ⟨[⟨"vegan", "DIETARY_HEALTH"⟩], fun _ _ => 0⟩ "sushi" none 0 = none := by
  refine ⟨?_, ?_, ?_⟩
  · exact (resolver_exact_then_embedding
      ⟨[⟨1, "tomato"⟩, ⟨2, "basil"⟩], [⟨1, "tomatoes"⟩, ⟨2, "basils"⟩],
        fun _ i => if i == 1 then 1 else 0⟩
      ⟨[], fun _ _ => 0⟩ "Tomatoes" "d" none (65/100)).2.1
      ⟨1, "tomato"⟩ (by decide)
  · exact ((resolver_exact_then_embedding
      ⟨[⟨1, "tomato"⟩, ⟨2, "basil"⟩], [⟨1, "tomatoes"⟩, ⟨2, "basils"⟩],
        fun _ i => if i == 1 then 1 else 0⟩
      ⟨[], fun _ _ => 0⟩ "tomatoz" "d" none 0).2.2.1
      (by decide) ⟨1, "tomato", some "tomatoes", 1, "embedding_match"⟩ (by decide)).2.1
  · exact (resolver_exact_then_embedding ⟨[], [], fun _ _ => 0⟩
      ⟨[⟨"vegan", "DIETARY_HEALTH"⟩], fun _ _ => 0⟩ "d" "sushi" none 0).2.2.2.2.2.2.2.1
      (by decide) (by decide)

/-! ### Hybrid search (`recipe_service.search_recipes_ingredients_first`) -/

/-- `recipe_service.RecipeService.get_all_ingredient_variants`. -/
def get_all_ingredient_variants (tbl : IngredientsTable) (canonical_id : Nat) :
    List String :=
  (tbl.ingredient_variants.filter (fun v => v.canonical_id == canonical_id)).map
    (fun v => v.variant)

/-- `prompts.system_prompts.GROUP_NAME_MAPPING` as a total function
(`GROUP_NAME_MAPPING.get(group, group)`). -/
def GROUP_NAME_MAPPING (group : String) : String :=
  if group == "DIETS" then "DIETARY_HEALTH"
  else if group == "FREE_OF" then "DIETARY_HEALTH"
  else if group == "SCALE" then "DIFFICULTY_SCALE"
  else group

/-- Python dict assignment `mapped[db_group] = value`: overwrite in place if
the key exists, append otherwise. -/
def dictInsert (d : List (String × String)) (k v : String) : List (String × String) :=
  if d.any (fun p => p.1 == k) then
    d.map (fun p => if p.1 == k then (k, v) else p)
  else d ++ [(k, v)]

/-- Python `d.get(k)` over the association-list dictionary. -/
def dictGet (d : List (String × String)) (k : String) : Option String :=
  (d.find? (fun p => p.1 == k)).map (fun p => p.2)

/-- `recipe_service.RecipeService.map_tags_for_db`: drop empty values and
re-key each group through `GROUP_NAME_MAPPING` (later groups overwrite
earlier ones that map to the same storage group). -/
def map_tags_for_db (tags_dict : List (String × String)) : List (String × String) :=
  tags_dict.foldl
    (fun mapped gv =>
      if gv.2 == "" then mapped else dictInsert mapped (GROUP_NAME_MAPPING gv.1) gv.2)
    []

/-- The hard-constraint filter statement built by
`search_recipes_ingredients_first`: one variant group per resolved include
ingredient (ALL groups must be hit), the union of all resolved exclude
variants (none may be hit), and the lowercased critical tags (ALL must be
present). -/
structure FilterSpec where
  includeVariantGroups : List (List String)
  excludeVariants : List String
  criticalTags : List String
deriving DecidableEq, Repr

/-- The recipe store behind the search.  `execFilter` and `execRank` are the
two statement executions (`cur.execute` of the candidate filter and of the
similarity ranking over the matched ids); they may fail with a raised
driver error, modelled as `Except.error` — the Python function body has no
`except` clause, only `try/finally` closing the cursor.  `execRank` also
covers `embedding_service.encode` of the free-text intent, which only runs
as part of the ranking step. -/
structure RecipeStore where
  itbl : IngredientsTable
  ttbl : TagsTable
  execFilter : FilterSpec → Except String (List Nat)
  execRank : String → List Nat → Except String (List (Nat × ℚ))

/-- The result dictionary of `search_recipes_ingredients_first`
(`recipe_ids`, `embedding_scores`, `total_found`); the scores dictionary is
kept as the ranked association list. -/
structure SearchResult where
  recipe_ids : List Nat
  embedding_scores : List (Nat × ℚ)
  total_found : Nat
deriving DecidableEq, Repr

/-- The resolution phase of `search_recipes_ingredients_first`: map and
filter the tags, resolve the two critical tag groups (`DIETARY_HEALTH`,
then `CUISINES_REGIONAL`), resolve every include/exclude ingredient at the
default threshold and expand each hit to its lowercased variants
(unresolved terms are dropped silently). -/
def buildFilterSpec (store : RecipeStore) (recipe_query : RecipeQuery)
    (tags : TagsSemanticSchema) : FilterSpec :=
  let tags_dict := tags.model_dump.filter (fun kv => kv.2 != "")
  let mapped_tags := map_tags_for_db tags_dict
  let criticalTags :=
    (match dictGet mapped_tags "DIETARY_HEALTH" with
     | some v =>
        match resolve_tag store.ttbl v (some "DIETARY_HEALTH") with
        | some r => [r.tag_name]
        | none => []
     | none => []) ++
    (match dictGet mapped_tags "CUISINES_REGIONAL" with
     | some v =>
        match resolve_tag store.ttbl v (some "CUISINES_REGIONAL") with
        | some r => [r.tag_name]
        | none => []
     | none => [])
  let includeGroups := recipe_query.include_ingredients.filterMap fun ing =>
    (resolve_ingredient_to_canonical store.itbl ing).map fun r =>
      (get_all_ingredient_variants store.itbl r.canonical_id).map pyLower
  let excludeVariants := (recipe_query.exclude_ingredients.filterMap fun ing =>
    (resolve_ingredient_to_canonical store.itbl ing).map fun r =>
      (get_all_ingredient_variants store.itbl r.canonical_id).map pyLower).flatten
  ⟨includeGroups, excludeVariants, criticalTags.map pyLower⟩

/-- `recipe_service.RecipeService.search_recipes_ingredients_first`: build
and execute the hard-constraint filter; if no ids match, return the empty
result immediately; otherwise rank the matching ids by embedding similarity
to the free-text intent and return the top `count` ids, the score map, and
the total number of matches.  Driver errors from either execution
propagate (`try/finally` only closes the connection). -/
def search_recipes_ingredients_first (store : RecipeStore) (recipe_query : RecipeQuery)
    (tags : TagsSemanticSchema) : Except String SearchResult :=
  match store.execFilter (buildFilterSpec store recipe_query tags) with
  | .error e => .error e
  | .ok matching_ids =>
    if matching_ids.isEmpty then
      .ok ⟨[], [], 0⟩
    else
      match store.execRank recipe_query.query matching_ids with
      | .error e => .error e
      | .ok results =>
        .ok ⟨(results.map (fun r => r.1)).take recipe_query.count, results, results.length⟩

/-- C5: when the hard-constraint filter yields zero candidate recipes, the
search returns `total_found = 0` with empty `recipe_ids` and an empty score
map immediately, for every possible ranking step — i.e. without invoking
the embedding/ranking execution at all. -/
theorem empty_filter_returns_empty_without_ranking (store : RecipeStore)
    (q : RecipeQuery) (tags : TagsSemanticSchema)
    (h : store.execFilter (buildFilterSpec store q tags) = .ok []) :
    ∀ rank, search_recipes_ingredients_first
        { store with execRank := rank } q tags = .ok ⟨[], [], 0⟩ := by
  intro rank
  have hspec : buildFilterSpec { store with execRank := rank } q tags
      = buildFilterSpec store q tags := rfl
  have hfil : store.execFilter
      (buildFilterSpec { store with execRank := rank } q tags) = .ok [] := by
    rw [hspec]
    exact h
  simp only [search_recipes_ingredients_first, hfil]
  rfl

/-- C5 witness: `empty_filter_returns_empty_without_ranking` on a store
whose filter matches nothing, with a ranking step that would fail if it
were ever invoked. -/
theorem empty_filter_returns_empty_without_ranking_witness :
    search_recipes_ingredients_first
        ⟨⟨[], [], fun _ _ => 0⟩, ⟨[], fun _ _ => 0⟩, fun _ => .ok [],
          fun _ _ => .error "ranking must not run"⟩
        ⟨"pasta", [], [], 5⟩ {} = .ok ⟨[], [], 0⟩ :=
  empty_filter_returns_empty_without_ranking
    ⟨⟨[], [], fun _ _ => 0⟩, ⟨[], fun _ _ => 0⟩, fun _ => .ok [],
      fun _ _ => .error "unused"⟩
    ⟨"pasta", [], [], 5⟩ {} rfl (fun _ _ => .error "ranking must not run")

/-- C4 (amended): a storage-layer error raised during the filtering or the
ranking execution propagates out of `search_recipes_ingredients_first`
unchanged — the function has no handler (its `try/finally` only closes the
cursor), so the caller sees the error rather than an empty result. -/
theorem search_propagates_storage_errors (store : RecipeStore) (q : RecipeQuery)
    (tags : TagsSemanticSchema) (e : String) :
    (store.execFilter (buildFilterSpec store q tags) = .error e →
        search_recipes_ingredients_first store q tags = .error e)
    ∧ ∀ ids, store.execFilter (buildFilterSpec store q tags) = .ok ids →
        ids.isEmpty = false → store.execRank q.query ids = .error e →
        search_recipes_ingredients_first store q tags = .error e := by
  constructor
  · intro h
    simp only [search_recipes_ingredients_first, h]
  · intro ids hfil hne hrank
    simp only [search_recipes_ingredients_first, hfil, hne, hrank]
    rfl

/-- C4 witness: `search_propagates_storage_errors` on a store whose filter
execution fails, and on one whose ranking execution fails. -/
theorem search_propagates_storage_errors_witness :
    search_recipes_ingredients_first
        ⟨⟨[], [], fun _ _ => 0⟩, ⟨[], fun _ _ => 0⟩,
          fun _ => .error "connection refused", fun _ _ => .ok []⟩
        ⟨"pasta", [], [], 5⟩ {} = .error "connection refused"
    ∧ search_recipes_ingredients_first
        ⟨⟨[], [], fun _ _ => 0⟩, ⟨[], fun _ _ => 0⟩,
          fun _ => .ok [7], fun _ _ => .error "rank failed"⟩
        ⟨"pasta", [], [], 5⟩ {} = .error "rank failed" :=
  ⟨(search_propagates_storage_errors
      ⟨⟨[], [], fun _ _ => 0⟩, ⟨[], fun _ _ => 0⟩,
        fun _ => .error "connection refused", fun _ _ => .ok []⟩
      ⟨"pasta", [], [], 5⟩ {} "connection refused").1 rfl,
   (search_propagates_storage_errors
      ⟨⟨[], [], fun _ _ => 0⟩, ⟨[], fun _ _ => 0⟩,
        fun _ => .ok [7], fun _ _ => .error "rank failed"⟩
      ⟨"pasta", [], [], 5⟩ {} "rank failed").2 [7] rfl rfl rfl⟩

/-- C4 counterexample: the claim fails as stated.  On a store whose filter
execution raises, the search returns that error — not the empty
`SearchResult` the claim requires. -/
theorem search_error_is_not_empty_result :
    search_recipes_ingredients_first
        ⟨⟨[], [], fun _ _ => 0⟩, ⟨[], fun _ _ => 0⟩,
          fun _ => .error "connection refused", fun _ _ => .ok []⟩
        ⟨"pasta", [], [], 5⟩ {} = .error "connection refused"
    ∧ search_recipes_ingredients_first
        ⟨⟨[], [], fun _ _ => 0⟩, ⟨[], fun _ _ => 0⟩,
          fun _ => .error "connection refused", fun _ _ => .ok []⟩
        ⟨"pasta", [], [], 5⟩ {} ≠ .ok ⟨[], [], 0⟩ := by
  constructor
  · rfl
  · intro h
    cases h
